import Mathlib

/-!
Verification development for the Anvil shell (tristanpoland/Anvil).

Shallow embedding of the core evaluation-and-escalation machinery:
  * the dynamic tagged-value model (src/objects.rs, `ShellObject`),
  * the fast tree-walking evaluator (src/eval.rs, `EvaluationEngine`),
  * the REPL orchestrator and compile-and-execute pipeline (src/repl.rs).

Modelling conventions:
  * Rust `String`/`str` is Lean `String`; `s.len()` (UTF-8 byte length)
    is `String.utf8ByteSize`.
  * Rust `i64` is `Int`; arithmetic that can wrap in release builds is
    wrapped through `wrapI64` (two complement, 64 bits).
  * Rust `f64` is the inductive `F64`: a finite rational, an infinity, or
    NaN.  Arithmetic on finite floats is idealized as exact rational
    arithmetic (no rounding); the claims settled here never depend on
    rounding, only on zero tests, equality structure and constructors.
  * `HashMap` is an association list; iteration order of a model map is
    its list order (the source order is arbitrary; no claim depends on it).
  * Fallible Rust code returns `Except AnvilErr` where the source cannot
    panic, and `RustResult` (which adds a `panicked` outcome) where it can.
  * External effects of the pipeline (the rustc invocation and the run of
    the produced executable) are parameters (`PipelineWorld`); the model
    tracks whether the derived executable still exists on disk at return.
-/

namespace Anvil

/-! ### Rust string primitives -/

/-- Unicode White_Space test, as used by Rust `str::trim`
(`char::is_whitespace`). -/
def rustIsWhitespace (c : Char) : Bool :=
  let n := c.toNat
  (decide (9 ≤ n) && decide (n ≤ 13)) || decide (n = 32) ||
  decide (n = 0x85) || decide (n = 0xA0) || decide (n = 0x1680) ||
  (decide (0x2000 ≤ n) && decide (n ≤ 0x200A)) ||
  decide (n = 0x2028) || decide (n = 0x2029) || decide (n = 0x202F) ||
  decide (n = 0x205F) || decide (n = 0x3000)

/-- Rust `str::trim`: drop leading and trailing whitespace. -/
def rustTrim (s : String) : String :=
  ⟨((s.data.dropWhile rustIsWhitespace).reverse.dropWhile
      rustIsWhitespace).reverse⟩

/-- Decimal digit character for a digit value below ten. -/
def digitChar (d : Nat) : Char := Char.ofNat (48 + d)

/-- Value of a decimal digit character, `none` on a non-digit. -/
def digitVal (c : Char) : Option Nat :=
  if c.isDigit then some (c.toNat - 48) else none

/-- Little-endian decimal digits, structurally recursive on a fuel bound
(any fuel at least the number itself is enough, since `n / 10 < n` for
positive `n`). -/
def natDigitsRevAux (fuel n : Nat) : List Nat :=
  match fuel with
  | 0 => [n]
  | fuel + 1 =>
    if n < 10 then [n] else (n % 10) :: natDigitsRevAux fuel (n / 10)

/-- Little-endian decimal digits of a natural number. -/
def natDigitsRev (n : Nat) : List Nat := natDigitsRevAux n n

/-- Decimal digit characters of a natural number, most significant first.
This is the Rust `Display` rendering of an unsigned integer. -/
def natToDigits (n : Nat) : List Char :=
  ((natDigitsRev n).map digitChar).reverse

/-- Rust `u64`-style decimal rendering. -/
def natToDisplay (n : Nat) : String := ⟨natToDigits n⟩

/-- Rust `i64::to_string`: optional minus sign, then decimal digits. -/
def intToDisplay (i : Int) : String :=
  if i < 0 then "-" ++ natToDisplay i.natAbs else natToDisplay i.natAbs

/-- Accumulating decimal parse: fails on the first non-digit. -/
def parseDigitsAux : List Char → Nat → Option Nat
  | [], acc => some acc
  | c :: cs, acc =>
    match digitVal c with
    | some d => parseDigitsAux cs (acc * 10 + d)
    | none => none

/-- Parse a non-empty all-digit character list. -/
def parseDigits (l : List Char) : Option Nat :=
  if l.isEmpty then none else parseDigitsAux l 0

def i64MaxInt : Int := 2 ^ 63 - 1
def i64MinInt : Int := -(2 ^ 63)

/-- Rust `str::parse::<i64>`: optional sign, one or more ASCII digits,
overflow is an error. -/
def parseI64 (s : String) : Option Int :=
  match s.data with
  | '+' :: rest =>
    (parseDigits rest).bind fun n =>
      if (n : Int) ≤ i64MaxInt then some (n : Int) else none
  | '-' :: rest =>
    (parseDigits rest).bind fun n =>
      if i64MinInt ≤ -(n : Int) then some (-(n : Int)) else none
  | l =>
    (parseDigits l).bind fun n =>
      if (n : Int) ≤ i64MaxInt then some (n : Int) else none

/-! ### The f64 model -/

/-- Model of an `f64`: a finite value (idealized as an exact rational,
collapsing positive and negative zero), an infinity, or NaN. -/
inductive F64 where
  | finite (q : ℚ)
  | inf
  | neginf
  | nan
deriving DecidableEq, Repr

/-- IEEE equality test (`==` on `f64`): NaN equals nothing, the two
zeros are already collapsed in the model. -/
def f64Eq : F64 → F64 → Bool
  | .finite p, .finite q => decide (p = q)
  | .inf, .inf => true
  | .neginf, .neginf => true
  | _, _ => false

/-- The test `b == 0.0` used by the division guards. -/
def f64IsZero (f : F64) : Bool := f64Eq f (.finite 0)

def f64IsNan : F64 → Bool
  | .nan => true
  | _ => false

/-- IEEE strict less-than (`<` on `f64`): false on any NaN operand. -/
def f64Lt : F64 → F64 → Bool
  | .finite p, .finite q => decide (p < q)
  | .finite _, .inf => true
  | .neginf, .finite _ => true
  | .neginf, .inf => true
  | _, _ => false

/-- Rust `i64 as f64` (idealized as exact; the claims settled here never
depend on the rounding of large magnitudes). -/
def intToF64 (i : Int) : F64 := .finite (i : ℚ)

/-- Unary negation on `f64`. -/
def f64Neg : F64 → F64
  | .finite q => .finite (-q)
  | .inf => .neginf
  | .neginf => .inf
  | .nan => .nan

/-- `f64` division, idealized: finite division is exact rational division;
a zero divisor follows IEEE (0/0 is NaN, otherwise a signed infinity). -/
def fdiv : F64 → F64 → F64
  | .nan, _ => .nan
  | _, .nan => .nan
  | .finite p, .finite q =>
    if q = 0 then (if p = 0 then .nan else if p > 0 then .inf else .neginf)
    else .finite (p / q)
  | .finite _, .inf => .finite 0
  | .finite _, .neginf => .finite 0
  | .inf, .finite q => if q < 0 then .neginf else .inf
  | .neginf, .finite q => if q < 0 then .inf else .neginf
  | .inf, .inf => .nan
  | .inf, .neginf => .nan
  | .neginf, .inf => .nan
  | .neginf, .neginf => .nan

/-- Addition on `f64` (idealized as exact on finite values). -/
def fadd : F64 → F64 → F64
  | .nan, _ => .nan
  | _, .nan => .nan
  | .finite p, .finite q => .finite (p + q)
  | .inf, .neginf => .nan
  | .neginf, .inf => .nan
  | .inf, _ => .inf
  | _, .inf => .inf
  | .neginf, _ => .neginf
  | _, .neginf => .neginf

/-- Subtraction on `f64` (idealized as exact on finite values). -/
def fsub (a b : F64) : F64 := fadd a (f64Neg b)

/-- Multiplication on `f64` (idealized as exact on finite values;
the zero-times-infinity NaN case is kept). -/
def fmul : F64 → F64 → F64
  | .nan, _ => .nan
  | _, .nan => .nan
  | .finite p, .finite q => .finite (p * q)
  | .inf, .finite q => if q = 0 then .nan else if q < 0 then .neginf else .inf
  | .finite p, .inf => if p = 0 then .nan else if p < 0 then .neginf else .inf
  | .neginf, .finite q => if q = 0 then .nan else if q < 0 then .inf else .neginf
  | .finite p, .neginf => if p = 0 then .nan else if p < 0 then .inf else .neginf
  | .inf, .inf => .inf
  | .neginf, .neginf => .inf
  | .inf, .neginf => .neginf
  | .neginf, .inf => .neginf

/-- Digits after the decimal point of a non-negative rational below one,
up to the given fuel; stops when the remainder becomes zero. -/
def fracDigits (fuel : Nat) (num den : Nat) : List Char :=
  match fuel with
  | 0 => []
  | fuel + 1 =>
    if num = 0 then []
    else digitChar (num * 10 / den) :: fracDigits fuel (num * 10 % den) den

/-- Rust `f64::to_string` (`{}` formatting): an integral float prints with
no fractional part (`5.0` prints as `"5"`), NaN as `"NaN"`, infinities as
`"inf"`/`"-inf"`.  The fractional rendering is exact for terminating
decimal expansions; the shortest-roundtrip algorithm of the source is
idealized (no settled claim depends on a non-integral rendering). -/
def f64ToDisplay : F64 → String
  | .nan => "NaN"
  | .inf => "inf"
  | .neginf => "-inf"
  | .finite q =>
    if q.den = 1 then intToDisplay q.num
    else
      (if q < 0 then "-" else "") ++ natToDisplay (q.num.natAbs / q.den) ++
        "." ++ ⟨fracDigits 40 (q.num.natAbs % q.den) q.den⟩

/-- Lower-case a character list (for the case-insensitive special float
spellings accepted by Rust `str::parse::<f64>`). -/
def toLowerChars (l : List Char) : List Char := l.map Char.toLower

/-- Split a character list at the first exponent marker `e`/`E`. -/
def splitExp (l : List Char) : List Char × Option (List Char) :=
  match l.span (fun c => !(c = 'e' || c = 'E')) with
  | (m, []) => (m, none)
  | (m, _ :: rest) => (m, some rest)

/-- Value of an all-digit character list (meaningful only when every
character is a digit). -/
def digitsValue (l : List Char) : Nat :=
  l.foldl (fun a c => a * 10 + (c.toNat - 48)) 0

/-- The decimal part of the `f64` grammar: `digits`, `digits.digits?`, or
`.digits`, with an optional `e`/`E` exponent carrying an optional sign and
at least one digit.  Returns the exact rational value. -/
def parseF64Decimal (sign : Int) (l : List Char) : Option F64 :=
  let (mant, expPart) := splitExp l
  let (ip, dotRest) := mant.span (fun c => !(c = '.'))
  let fp := match dotRest with
    | [] => []
    | _ :: r => r
  if fp.any (fun c => c = '.') then none
  else if !(ip.all Char.isDigit && fp.all Char.isDigit) then none
  else if ip.isEmpty && fp.isEmpty then none
  else
    let expVal : Option Int :=
      match expPart with
      | none => some 0
      | some e =>
        match e with
        | '+' :: d => (parseDigits d).map (fun n => (n : Int))
        | '-' :: d => (parseDigits d).map (fun n => -(n : Int))
        | d => (parseDigits d).map (fun n => (n : Int))
    match expVal with
    | none => none
    | some ex =>
      let base : ℚ :=
        (digitsValue ip : ℚ) + (digitsValue fp : ℚ) / (10 : ℚ) ^ fp.length
      some (.finite ((sign : ℚ) * base * (10 : ℚ) ^ ex))

/-- Rust `str::parse::<f64>`: optional sign, then `inf`/`infinity`/`nan`
(case-insensitive) or a decimal number with optional exponent.  Finite
values are idealized as exact rationals (no claim settled here depends on
the rounding of the parsed value, only on acceptance or rejection). -/
def parseF64 (s : String) : Option F64 :=
  let (sign, rest) : Int × List Char :=
    match s.data with
    | '+' :: r => (1, r)
    | '-' :: r => (-1, r)
    | r => (1, r)
  let low := toLowerChars rest
  if low = "inf".data || low = "infinity".data then
    some (if sign = 1 then .inf else .neginf)
  else if low = "nan".data then some .nan
  else parseF64Decimal sign rest

/-! ### Error taxonomy (src/error.rs, `AnvilError`)

Only the variants reachable from the embedded core are modelled. -/

inductive AnvilErr where
  | replE (message : String)
  | evalE (message : String)
  | parseE (message : String)
  | typeE (expected : String) (found : String)
  | objectE (message : String)
  | runtimeE (message : String)
  | compilationE (message : String)
  | unsupportedE (operation : String)
deriving DecidableEq, Repr

/-- Result of Rust code that may also abort the process: normal `Ok`,
normal `Err`, or a panic (index out of bounds, invalid slice range). -/
inductive RustResult (α : Type) where
  | ok (a : α)
  | err (e : AnvilErr)
  | panicked
deriving DecidableEq, Repr

/-- Lift an ordinary `AnvilResult` into a panic-aware result. -/
def exceptToRust {α : Type} : Except AnvilErr α → RustResult α
  | .ok a => .ok a
  | .error e => .err e

/-! ### The value model (src/objects.rs, `ShellObject`)

Record variants carry their observable field values.  Path components
(`file_name`, `parent`, `extension`) and filesystem predicates (`exists`,
`is_file`, `is_dir`) are recorded in the model object rather than
recomputed, since they depend on `std::path`/the filesystem; no settled
claim touches them. -/

structure FileObject where
  path : String
  name : String
  extension : String
  size : Nat
  permissions : String
deriving DecidableEq, Repr

structure DirectoryObject where
  path : String
  name : String
  entries : List String
deriving DecidableEq, Repr

structure PathObject where
  path : String
  parent : String
  filename : String
  extension : String
  pathExists : Bool
  isFile : Bool
  isDir : Bool
deriving DecidableEq, Repr

structure ProcessObject where
  pid : Nat
  name : String
  command : String
  status : String
deriving DecidableEq, Repr

structure CommandObject where
  name : String
  args : List String
  env : List (String × String)
deriving DecidableEq, Repr

structure EnvironmentObject where
  vars : List (String × String)
deriving DecidableEq, Repr

structure FunctionObject where
  name : String
  signature : String
  body : String
deriving DecidableEq, Repr

/-- The closed dynamic tagged-value type. -/
inductive ShellObject where
  | String (s : String)
  | Integer (i : Int)
  | Float (f : F64)
  | Boolean (b : Bool)
  | Unit
  | Array (elems : List ShellObject)
  | Map (entries : List (String × ShellObject))
  | File (f : FileObject)
  | Directory (d : DirectoryObject)
  | Path (p : PathObject)
  | Process (p : ProcessObject)
  | Command (c : CommandObject)
  | Environment (e : EnvironmentObject)
  | Function (f : FunctionObject)
  | Error (message : String)

/-- Association-list lookup, modelling `HashMap::get`. -/
def assocLookup {α : Type} (entries : List (String × α)) (key : String) :
    Option α :=
  match entries with
  | [] => none
  | (k, v) :: rest => if k = key then some v else assocLookup rest key

/-- `ShellObject::type_name`. -/
def typeName : ShellObject → String
  | .String _ => "String"
  | .Integer _ => "Integer"
  | .Float _ => "Float"
  | .Boolean _ => "Boolean"
  | .Unit => "Unit"
  | .Array _ => "Array"
  | .Map _ => "Map"
  | .File _ => "File"
  | .Directory _ => "Directory"
  | .Path _ => "Path"
  | .Process _ => "Process"
  | .Command _ => "Command"
  | .Environment _ => "Environment"
  | .Function _ => "Function"
  | .Error _ => "Error"

/-- UTF-8 bytes of a string, as integers (Rust `str::bytes`). -/
def stringBytes (s : String) : List Int :=
  s.toUTF8.data.toList.map (fun b => (b.toNat : Int))

/-- `FileObject::get_field`. -/
def FileObject.get_field (f : FileObject) (name : String) :
    Except AnvilErr ShellObject :=
  match name with
  | "path" => .ok (.String f.path)
  | "name" => .ok (.String f.name)
  | "extension" => .ok (.String f.extension)
  | "size" => .ok (.Integer f.size)
  | "permissions" => .ok (.String f.permissions)
  | _ => .error (.objectE ("File has no field \x27" ++ name ++ "\x27"))

/-- `DirectoryObject::get_field`. -/
def DirectoryObject.get_field (d : DirectoryObject) (name : String) :
    Except AnvilErr ShellObject :=
  match name with
  | "path" => .ok (.String d.path)
  | "name" => .ok (.String d.name)
  | "entries" => .ok (.Array (d.entries.map (fun e => .String e)))
  | "count" => .ok (.Integer d.entries.length)
  | _ => .error (.objectE ("Directory has no field \x27" ++ name ++ "\x27"))

/-- `PathObject::get_field`. -/
def PathObject.get_field (p : PathObject) (name : String) :
    Except AnvilErr ShellObject :=
  match name with
  | "path" => .ok (.String p.path)
  | "parent" => .ok (.String p.parent)
  | "filename" => .ok (.String p.filename)
  | "extension" => .ok (.String p.extension)
  | "exists" => .ok (.Boolean p.pathExists)
  | "is_file" => .ok (.Boolean p.isFile)
  | "is_dir" => .ok (.Boolean p.isDir)
  | _ => .error (.objectE ("Path has no field \x27" ++ name ++ "\x27"))

/-- `ProcessObject::get_field`. -/
def ProcessObject.get_field (p : ProcessObject) (name : String) :
    Except AnvilErr ShellObject :=
  match name with
  | "pid" => .ok (.Integer p.pid)
  | "name" => .ok (.String p.name)
  | "command" => .ok (.String p.command)
  | "status" => .ok (.String p.status)
  | _ => .error (.objectE ("Process has no field \x27" ++ name ++ "\x27"))

/-- `CommandObject::get_field`. -/
def CommandObject.get_field (c : CommandObject) (name : String) :
    Except AnvilErr ShellObject :=
  match name with
  | "name" => .ok (.String c.name)
  | "args" => .ok (.Array (c.args.map (fun a => .String a)))
  | "env" => .ok (.Map (c.env.map (fun kv => (kv.1, .String kv.2))))
  | _ => .error (.objectE ("Command has no field \x27" ++ name ++ "\x27"))

/-- `EnvironmentObject::get_field`. -/
def EnvironmentObject.get_field (e : EnvironmentObject) (name : String) :
    Except AnvilErr ShellObject :=
  match assocLookup e.vars name with
  | some v => .ok (.String v)
  | none =>
    .error (.objectE
      ("Environment variable \x27" ++ name ++ "\x27 not found"))

/-- `ShellObject::get_field`: the per-variant fixed field tables.  String
`length` is the UTF-8 byte length (`s.len()`); `chars` is the list of
one-character strings; `bytes` the list of UTF-8 bytes.  `Function` and
the scalar variants fall to the no-fields error. -/
def get_field (o : ShellObject) (name : String) :
    Except AnvilErr ShellObject :=
  match o with
  | .String s =>
    match name with
    | "length" => .ok (.Integer s.utf8ByteSize)
    | "chars" =>
      .ok (.Array (s.data.map (fun c => .String ⟨[c]⟩)))
    | "bytes" => .ok (.Array ((stringBytes s).map (fun b => .Integer b)))
    | "is_empty" => .ok (.Boolean s.isEmpty)
    | _ => .error (.objectE ("String has no field \x27" ++ name ++ "\x27"))
  | .Array arr =>
    match name with
    | "length" => .ok (.Integer arr.length)
    | "is_empty" => .ok (.Boolean arr.isEmpty)
    | "first" =>
      match arr.head? with
      | some v => .ok v
      | none => .error (.objectE "Array is empty")
    | "last" =>
      match arr.getLast? with
      | some v => .ok v
      | none => .error (.objectE "Array is empty")
    | _ => .error (.objectE ("Array has no field \x27" ++ name ++ "\x27"))
  | .File f => f.get_field name
  | .Directory d => d.get_field name
  | .Path p => p.get_field name
  | .Process p => p.get_field name
  | .Command c => c.get_field name
  | .Environment e => e.get_field name
  | .Map entries =>
    match assocLookup entries name with
    | some v => .ok v
    | none => .error (.objectE ("Map has no field \x27" ++ name ++ "\x27"))
  | o =>
    .error (.objectE (typeName o ++ " has no fields"))

/-- Helper for `FunctionObject` fields (reached only through the
`_ => has no fields` arm above, matching the source where `Function`
delegates to `FunctionObject::get_field`; the source routes `Function`
into the catch-all because `ShellObject::get_field` has no `Function`
arm). -/
def FunctionObject.get_field (f : FunctionObject) (name : String) :
    Except AnvilErr ShellObject :=
  match name with
  | "name" => .ok (.String f.name)
  | "signature" => .ok (.String f.signature)
  | "body" => .ok (.String f.body)
  | _ => .error (.objectE ("Function has no field \x27" ++ name ++ "\x27"))

/-- Join a list of strings with `", "` (the `join(", ")` of the source). -/
def joinComma (l : List String) : String := String.intercalate ", " l

mutual

/-- `ShellObject::to_display_string`.  Map iteration order is the model
list order. -/
def to_display_string : ShellObject → String
  | .String s => s
  | .Integer i => intToDisplay i
  | .Float f => f64ToDisplay f
  | .Boolean b => if b then "true" else "false"
  | .Unit => "()"
  | .Array arr => "[" ++ joinComma (displayElems arr) ++ "]"
  | .Map entries =>
    "\x7b" ++ joinComma (displayEntries entries) ++ "\x7d"
  | .File f => "File(" ++ f.path ++ ")"
  | .Directory d => "Directory(" ++ d.path ++ ")"
  | .Path p => p.path
  | .Process p =>
    "Process(pid=" ++ natToDisplay p.pid ++ ", name=" ++ p.name ++ ")"
  | .Command c => "Command(" ++ c.name ++ ")"
  | .Environment e =>
    "Environment(" ++ natToDisplay e.vars.length ++ " vars)"
  | .Function f => "Function(" ++ f.name ++ ")"
  | .Error m => "Error: " ++ m

def displayElems : List ShellObject → List String
  | [] => []
  | v :: rest => to_display_string v :: displayElems rest

def displayEntries : List (String × ShellObject) → List String
  | [] => []
  | (k, v) :: rest =>
    (k ++ ": " ++ to_display_string v) :: displayEntries rest

end

/-! ### Integer (i64) arithmetic helpers -/

/-- Two-complement wrap into the `i64` range (release-build overflow
behavior of the source arithmetic). -/
def wrapI64 (x : Int) : Int := (x + 2 ^ 63) % 2 ^ 64 - 2 ^ 63

/-! ### Operator tables of the fast evaluator (src/eval.rs) -/

/-- `add_objects`. -/
def add_objects (left right : ShellObject) :
    Except AnvilErr ShellObject :=
  match left, right with
  | .Integer a, .Integer b => .ok (.Integer (wrapI64 (a + b)))
  | .Float a, .Float b => .ok (.Float (fadd a b))
  | .Integer a, .Float b => .ok (.Float (fadd (intToF64 a) b))
  | .Float a, .Integer b => .ok (.Float (fadd a (intToF64 b)))
  | .String a, .String b => .ok (.String (a ++ b))
  | .Array a, .Array b => .ok (.Array (a ++ b))
  | a, b =>
    .error (.typeE "compatible types for addition"
      (typeName a ++ " + " ++ typeName b))

/-- `sub_objects`. -/
def sub_objects (left right : ShellObject) :
    Except AnvilErr ShellObject :=
  match left, right with
  | .Integer a, .Integer b => .ok (.Integer (wrapI64 (a - b)))
  | .Float a, .Float b => .ok (.Float (fsub a b))
  | .Integer a, .Float b => .ok (.Float (fsub (intToF64 a) b))
  | .Float a, .Integer b => .ok (.Float (fsub a (intToF64 b)))
  | a, b =>
    .error (.typeE "numeric types for subtraction"
      (typeName a ++ " - " ++ typeName b))

/-- `mul_objects`. -/
def mul_objects (left right : ShellObject) :
    Except AnvilErr ShellObject :=
  match left, right with
  | .Integer a, .Integer b => .ok (.Integer (wrapI64 (a * b)))
  | .Float a, .Float b => .ok (.Float (fmul a b))
  | .Integer a, .Float b => .ok (.Float (fmul (intToF64 a) b))
  | .Float a, .Integer b => .ok (.Float (fmul a (intToF64 b)))
  | a, b =>
    .error (.typeE "numeric types for multiplication"
      (typeName a ++ " * " ++ typeName b))

/-- `div_objects`: `/` always produces a Float; a zero divisor (integer
zero, or a float equal to `0.0`) is a RuntimeError before any division is
performed, so no infinite or NaN value can arise from a zero divisor. -/
def div_objects (left right : ShellObject) :
    Except AnvilErr ShellObject :=
  match left, right with
  | .Integer a, .Integer b =>
    if b = 0 then .error (.runtimeE "Division by zero")
    else .ok (.Float (fdiv (intToF64 a) (intToF64 b)))
  | .Float a, .Float b =>
    if f64IsZero b then .error (.runtimeE "Division by zero")
    else .ok (.Float (fdiv a b))
  | .Integer a, .Float b =>
    if f64IsZero b then .error (.runtimeE "Division by zero")
    else .ok (.Float (fdiv (intToF64 a) b))
  | .Float a, .Integer b =>
    if b = 0 then .error (.runtimeE "Division by zero")
    else .ok (.Float (fdiv a (intToF64 b)))
  | a, b =>
    .error (.typeE "numeric types for division"
      (typeName a ++ " / " ++ typeName b))

/-- `rem_objects`: `%` is integer-only; Rust `%` truncates toward zero
(`Int.tmod`). -/
def rem_objects (left right : ShellObject) :
    Except AnvilErr ShellObject :=
  match left, right with
  | .Integer a, .Integer b =>
    if b = 0 then .error (.runtimeE "Division by zero")
    else .ok (.Integer (Int.tmod a b))
  | a, b =>
    .error (.typeE "integer types for remainder"
      (typeName a ++ " % " ++ typeName b))

/-- `and_objects`. -/
def and_objects (left right : ShellObject) :
    Except AnvilErr ShellObject :=
  match left, right with
  | .Boolean a, .Boolean b => .ok (.Boolean (a && b))
  | a, b =>
    .error (.typeE "boolean types for logical AND"
      (typeName a ++ " && " ++ typeName b))

/-- `or_objects`. -/
def or_objects (left right : ShellObject) :
    Except AnvilErr ShellObject :=
  match left, right with
  | .Boolean a, .Boolean b => .ok (.Boolean (a || b))
  | a, b =>
    .error (.typeE "boolean types for logical OR"
      (typeName a ++ " || " ++ typeName b))

/-- `xor_objects` (bitwise `^`, integers only). -/
def xor_objects (left right : ShellObject) :
    Except AnvilErr ShellObject :=
  match left, right with
  | .Integer a, .Integer b => .ok (.Integer (Int.xor a b))
  | a, b =>
    .error (.typeE "integer types for XOR"
      (typeName a ++ " ^ " ++ typeName b))

/-- `bitand_objects`. -/
def bitand_objects (left right : ShellObject) :
    Except AnvilErr ShellObject :=
  match left, right with
  | .Integer a, .Integer b => .ok (.Integer (Int.land a b))
  | a, b =>
    .error (.typeE "integer types for bitwise AND"
      (typeName a ++ " & " ++ typeName b))

/-- `bitor_objects`. -/
def bitor_objects (left right : ShellObject) :
    Except AnvilErr ShellObject :=
  match left, right with
  | .Integer a, .Integer b => .ok (.Integer (Int.lor a b))
  | a, b =>
    .error (.typeE "integer types for bitwise OR"
      (typeName a ++ " | " ++ typeName b))

/-- `shl_objects`: shift amount must lie in `[0, 64)`; the shifted result
wraps as in a release build. -/
def shl_objects (left right : ShellObject) :
    Except AnvilErr ShellObject :=
  match left, right with
  | .Integer a, .Integer b =>
    if 0 ≤ b ∧ b < 64 then .ok (.Integer (wrapI64 (a * 2 ^ b.toNat)))
    else .error (.runtimeE "Shift amount out of range")
  | a, b =>
    .error (.typeE "integer types for left shift"
      (typeName a ++ " << " ++ typeName b))

/-- `shr_objects`: arithmetic right shift (floor division by a power of
two). -/
def shr_objects (left right : ShellObject) :
    Except AnvilErr ShellObject :=
  match left, right with
  | .Integer a, .Integer b =>
    if 0 ≤ b ∧ b < 64 then .ok (.Integer (Int.fdiv a (2 ^ b.toNat)))
    else .error (.runtimeE "Shift amount out of range")
  | a, b =>
    .error (.typeE "integer types for right shift"
      (typeName a ++ " >> " ++ typeName b))

/-- `eq_objects`: numeric cross-type equality coerces to float; Strings,
Booleans and Unit compare structurally; every other pairing — including
two Arrays, two Maps, and every record variant, even compared with
itself — is `false`. -/
def eq_objects (left right : ShellObject) : Bool :=
  match left, right with
  | .Integer a, .Integer b => decide (a = b)
  | .Float a, .Float b => f64Eq a b
  | .Integer a, .Float b => f64Eq (intToF64 a) b
  | .Float a, .Integer b => f64Eq a (intToF64 b)
  | .String a, .String b => decide (a = b)
  | .Boolean a, .Boolean b => decide (a = b)
  | .Unit, .Unit => true
  | _, _ => false

/-- Byte-wise (equivalently, scalar-value-wise) lexicographic strict
order of Rust `&str`. -/
def charListLt : List Char → List Char → Bool
  | [], [] => false
  | [], _ :: _ => true
  | _ :: _, [] => false
  | a :: as, b :: bs =>
    if a < b then true else if b < a then false else charListLt as bs

/-- `lt_objects`. -/
def lt_objects (left right : ShellObject) : Except AnvilErr Bool :=
  match left, right with
  | .Integer a, .Integer b => .ok (decide (a < b))
  | .Float a, .Float b => .ok (f64Lt a b)
  | .Integer a, .Float b => .ok (f64Lt (intToF64 a) b)
  | .Float a, .Integer b => .ok (f64Lt a (intToF64 b))
  | .String a, .String b => .ok (charListLt a.data b.data)
  | a, b =>
    .error (.typeE "comparable types"
      (typeName a ++ " < " ++ typeName b))

/-- `le_objects` = `lt || eq`. -/
def le_objects (left right : ShellObject) : Except AnvilErr Bool :=
  match lt_objects left right with
  | .ok l => .ok (l || eq_objects left right)
  | .error e => .error e

/-- `gt_objects` = `!le`. -/
def gt_objects (left right : ShellObject) : Except AnvilErr Bool :=
  match le_objects left right with
  | .ok l => .ok (!l)
  | .error e => .error e

/-- `ge_objects` = `!lt`. -/
def ge_objects (left right : ShellObject) : Except AnvilErr Bool :=
  match lt_objects left right with
  | .ok l => .ok (!l)
  | .error e => .error e

/-! ### Expression grammar (the `syn::Expr` fragment the evaluator
dispatches on, src/eval.rs `evaluate_expr`)

`blockE`, `ifE` and `matchE` carry no payload: the source handlers
(`evaluate_block`, `evaluate_if`, `evaluate_match`) ignore their argument
entirely and fail unconditionally, so the contents are irrelevant to
behavior.  `otherE` is the catch-all arm and carries the token text the
source interpolates into its error message. -/

inductive LitE where
  | str (s : String)
  | int (value : Nat)
  | float (value : ℚ)
  | bool (b : Bool)
  | char (c : Char)
  | otherLit
deriving DecidableEq, Repr

inductive BinOpE where
  | Add | Sub | Mul | Div | Rem | And | Or | BitXor | BitAnd | BitOr
  | Shl | Shr | Eq | Lt | Le | Ne | Ge | Gt | OtherOp
deriving DecidableEq, Repr

inductive UnOpE where
  | Not | Neg | OtherUn
deriving DecidableEq, Repr

inductive MemberE where
  | named (s : String)
  | unnamed (n : Nat)
deriving DecidableEq, Repr

inductive ExprE where
  | lit (l : LitE)
  | path (segments : List String)
  | binary (op : BinOpE) (lhs rhs : ExprE)
  | unary (op : UnOpE) (e : ExprE)
  | paren (e : ExprE)
  | arrayE (elems : List ExprE)
  | tupleE (elems : List ExprE)
  | call (fn : ExprE) (args : List ExprE)
  | methodCall (receiver : ExprE) (method : String) (args : List ExprE)
  | fieldE (base : ExprE) (member : MemberE)
  | indexE (base : ExprE) (idx : ExprE)
  | blockE
  | ifE
  | matchE
  | otherE (tokens : String)

/-- Variable environment snapshot handed to the evaluator. -/
abbrev Env := List (String × ShellObject)

/-- Message produced when `base10_parse::<i64>` overflows on an integer
literal (the `Display` of `std::num::ParseIntError` interpolated into the
`Invalid integer: {}` format of `evaluate_literal`). -/
def litIntOverflowMessage : String :=
  "Invalid integer: number too large to fit in target type"

/-- `evaluate_literal`: an integer literal is the (unsigned) digit value
produced by the parser; `base10_parse::<i64>` fails on values above
`i64::MAX`, so the minimum `i64` is not reachable from a literal.  A char
literal becomes a one-character String. -/
def evaluate_literal : LitE → Except AnvilErr ShellObject
  | .str s => .ok (.String s)
  | .int n =>
    if (n : Int) ≤ i64MaxInt then .ok (.Integer n)
    else .error (.evalE litIntOverflowMessage)
  | .float q => .ok (.Float (.finite q))
  | .bool b => .ok (.Boolean b)
  | .char c => .ok (.String ⟨[c]⟩)
  | .otherLit => .error (.evalE "Unsupported literal type")

def joinSegments (segs : List String) : String :=
  String.intercalate "::" segs

/-- The built-in constants branch of `evaluate_path`. -/
def evaluatePathConst (pathStr : String) : Except AnvilErr ShellObject :=
  if pathStr = "true" then .ok (.Boolean true)
  else if pathStr = "false" then .ok (.Boolean false)
  else .error (.evalE ("Unknown identifier: " ++ pathStr))

/-- `evaluate_path`: a single-segment path is first looked up as a
variable; any path then falls through to the constants `true`/`false`
or an unknown-identifier error. -/
def evaluate_path (env : Env) (segs : List String) :
    Except AnvilErr ShellObject :=
  match segs with
  | [single] =>
    match assocLookup env single with
    | some v => .ok v
    | none => evaluatePathConst (joinSegments segs)
  | _ => evaluatePathConst (joinSegments segs)

/-- The operator dispatch of `evaluate_binary` (operands already
evaluated). -/
def evaluate_binary_op (op : BinOpE) (left right : ShellObject) :
    Except AnvilErr ShellObject :=
  match op with
  | .Add => add_objects left right
  | .Sub => sub_objects left right
  | .Mul => mul_objects left right
  | .Div => div_objects left right
  | .Rem => rem_objects left right
  | .And => and_objects left right
  | .Or => or_objects left right
  | .BitXor => xor_objects left right
  | .BitAnd => bitand_objects left right
  | .BitOr => bitor_objects left right
  | .Shl => shl_objects left right
  | .Shr => shr_objects left right
  | .Eq => .ok (.Boolean (eq_objects left right))
  | .Ne => .ok (.Boolean (!eq_objects left right))
  | .Lt =>
    match lt_objects left right with
    | .ok b => .ok (.Boolean b)
    | .error e => .error e
  | .Le =>
    match le_objects left right with
    | .ok b => .ok (.Boolean b)
    | .error e => .error e
  | .Gt =>
    match gt_objects left right with
    | .ok b => .ok (.Boolean b)
    | .error e => .error e
  | .Ge =>
    match ge_objects left right with
    | .ok b => .ok (.Boolean b)
    | .error e => .error e
  | .OtherOp => .error (.evalE "Unsupported binary operator")

/-- The operator dispatch of `evaluate_unary` (operand already
evaluated).  Integer negation wraps as in a release build. -/
def evaluate_unary_op (op : UnOpE) (operand : ShellObject) :
    Except AnvilErr ShellObject :=
  match op with
  | .Not =>
    match operand with
    | .Boolean b => .ok (.Boolean (!b))
    | v => .error (.typeE "boolean" (typeName v))
  | .Neg =>
    match operand with
    | .Integer i => .ok (.Integer (wrapI64 (-i)))
    | .Float f => .ok (.Float (f64Neg f))
    | v => .error (.typeE "numeric" (typeName v))
  | .OtherUn => .error (.evalE "Unsupported unary operator")

/-- `evaluate_index` (base and index already evaluated).  An Array is
indexed with a bound check against its element count.  A String is bound
checked against its UTF-8 BYTE length (`s.len()`) but then indexed into
its CHAR vector (`s.chars().collect()`), so an index that is a valid byte
position beyond the char count panics instead of erroring.  A Map lookup
with a missing key yields Unit. -/
def evaluate_index_op (base idxVal : ShellObject) :
    RustResult ShellObject :=
  match base, idxVal with
  | .Array arr, .Integer idx =>
    if 0 ≤ idx ∧ idx.toNat < arr.length then
      match arr.get? idx.toNat with
      | some v => .ok v
      | none => .panicked
    else
      .err (.runtimeE ("Index " ++ intToDisplay idx ++
        " out of bounds for array of length " ++
        natToDisplay arr.length))
  | .Map entries, .String key =>
    .ok ((assocLookup entries key).getD .Unit)
  | .String s, .Integer idx =>
    if 0 ≤ idx ∧ idx.toNat < s.utf8ByteSize then
      match s.data.get? idx.toNat with
      | some c => .ok (.String ⟨[c]⟩)
      | none => .panicked
    else
      .err (.runtimeE ("Index " ++ intToDisplay idx ++
        " out of bounds for string of length " ++
        natToDisplay s.utf8ByteSize))
  | _, _ => .err (.evalE "Invalid index operation")

mutual

/-- `evaluate_expr`: the tree-walking evaluator over the bounded grammar.
The `print`/`println` builtins evaluate their operands in order and
return Unit; the write to the output stream is an elided effect.  Block,
if and match expressions, and every form outside the grammar, fail with
an EvalError without being evaluated. -/
def evaluate_expr (env : Env) : ExprE → RustResult ShellObject
  | .lit l => exceptToRust (evaluate_literal l)
  | .path segs => exceptToRust (evaluate_path env segs)
  | .binary op lhs rhs =>
    match evaluate_expr env lhs with
    | .ok lv =>
      match evaluate_expr env rhs with
      | .ok rv => exceptToRust (evaluate_binary_op op lv rv)
      | .err e => .err e
      | .panicked => .panicked
    | .err e => .err e
    | .panicked => .panicked
  | .unary op e =>
    match evaluate_expr env e with
    | .ok v => exceptToRust (evaluate_unary_op op v)
    | .err e => .err e
    | .panicked => .panicked
  | .paren e => evaluate_expr env e
  | .arrayE elems =>
    match evalArgs env elems with
    | .ok vs => .ok (.Array vs)
    | .err e => .err e
    | .panicked => .panicked
  | .tupleE elems =>
    if elems.isEmpty then .ok .Unit
    else
      match evalArgs env elems with
      | .ok vs => .ok (.Array vs)
      | .err e => .err e
      | .panicked => .panicked
  | .call fn args =>
    match fn with
    | .path segs =>
      let funcName := joinSegments segs
      if funcName = "println" || funcName = "print" then
        match evalArgs env args with
        | .ok _ => .ok .Unit
        | .err e => .err e
        | .panicked => .panicked
      else if funcName = "format" then
        match args with
        | [] => .ok (.String "")
        | a :: _ =>
          match evaluate_expr env a with
          | .ok (.String s) => .ok (.String s)
          | .ok v => .ok (.String (to_display_string v))
          | .err e => .err e
          | .panicked => .panicked
      else if funcName = "len" then
        match args with
        | [a] =>
          match evaluate_expr env a with
          | .ok (.String s) => .ok (.Integer s.utf8ByteSize)
          | .ok (.Array arr) => .ok (.Integer arr.length)
          | .ok v => .err (.typeE "string or array" (typeName v))
          | .err e => .err e
          | .panicked => .panicked
        | _ => .err (.evalE "len() requires exactly one argument")
      else .err (.evalE ("Unknown function: " ++ funcName))
    | _ => .err (.evalE "Complex function calls not supported yet")
  | .methodCall recv method args =>
    match evaluate_expr env recv with
    | .ok receiver =>
      if method = "len" then
        match receiver with
        | .String s => .ok (.Integer s.utf8ByteSize)
        | .Array arr => .ok (.Integer arr.length)
        | v =>
          .err (.evalE ("Type " ++ typeName v ++ " has no method len"))
      else if method = "is_empty" then
        match receiver with
        | .String s => .ok (.Boolean s.isEmpty)
        | .Array arr => .ok (.Boolean arr.isEmpty)
        | v =>
          .err (.evalE
            ("Type " ++ typeName v ++ " has no method is_empty"))
      else if method = "push" then
        match args with
        | [a] =>
          match evaluate_expr env a with
          | .ok arg =>
            match receiver with
            | .Array arr => .ok (.Array (arr ++ [arg]))
            | v =>
              .err (.evalE
                ("Type " ++ typeName v ++ " has no method push"))
          | .err e => .err e
          | .panicked => .panicked
        | _ => .err (.evalE "push() requires exactly one argument")
      else if method = "get" then
        match args with
        | [a] =>
          match evaluate_expr env a with
          | .ok key =>
            match receiver, key with
            | .Map entries, .String k =>
              .ok ((assocLookup entries k).getD .Unit)
            | .Array arr, .Integer idx =>
              if 0 ≤ idx ∧ idx.toNat < arr.length then
                .ok ((arr.get? idx.toNat).getD .Unit)
              else .ok .Unit
            | _, _ => .err (.evalE "Invalid get() operation")
          | .err e => .err e
          | .panicked => .panicked
        | _ => .err (.evalE "get() requires exactly one argument")
      else exceptToRust (get_field receiver method)
    | .err e => .err e
    | .panicked => .panicked
  | .fieldE base member =>
    match evaluate_expr env base with
    | .ok b =>
      match member with
      | .named name => exceptToRust (get_field b name)
      | .unnamed _ => .err (.evalE "Tuple field access not supported")
    | .err e => .err e
    | .panicked => .panicked
  | .indexE baseE idxE =>
    match evaluate_expr env baseE with
    | .ok b =>
      match evaluate_expr env idxE with
      | .ok i => evaluate_index_op b i
      | .err e => .err e
      | .panicked => .panicked
    | .err e => .err e
    | .panicked => .panicked
  | .blockE =>
    .err (.evalE "Block expressions not supported in simple evaluation")
  | .ifE =>
    .err (.evalE "If expressions not supported in simple evaluation")
  | .matchE =>
    .err (.evalE "Match expressions not supported in simple evaluation")
  | .otherE tokens =>
    .err (.evalE ("Unsupported expression type: " ++ tokens))

/-- Left-to-right evaluation of an expression list, stopping at the
first failure. -/
def evalArgs (env : Env) : List ExprE → RustResult (List ShellObject)
  | [] => .ok []
  | e :: rest =>
    match evaluate_expr env e with
    | .ok v =>
      match evalArgs env rest with
      | .ok vs => .ok (v :: vs)
      | .err e2 => .err e2
      | .panicked => .panicked
    | .err e2 => .err e2
    | .panicked => .panicked

end

/-! ### REPL orchestrator and compile-and-execute pipeline (src/repl.rs)

The external effects of the pipeline — the rustc invocation and the run
of the produced executable — are supplied as a `PipelineWorld` oracle.
The model tracks whether the derived executable still exists on disk when
`compile_and_execute` returns: rustc produces it exactly when compilation
succeeds, and the source removes it at exactly one program point (after
the run-phase timing check and spawn unwrap, before the exit-status
check). -/

/-- Per-session REPL state (`ReplContext`). -/
structure ReplContext where
  -- `variables` is a Lean keyword; this field models `ReplContext::variables`
  variablesMap : List (String × ShellObject)
  functions : List (String × String)
  imports : List String
  code_history : List String
  multiline_mode : Bool
  continuation_buffer : String

/-- `ReplContext::default()`. -/
def ReplContext.empty : ReplContext where
  variablesMap := []
  functions := []
  imports :=
    [ "use std::collections::HashMap;"
    , "use std::path::PathBuf;"
    , "use std::fs;"
    , "use std::process::Command;"
    , "use std::io::\x7bself, Write\x7d;" ]
  code_history := []
  multiline_mode := false
  continuation_buffer := ""

/-- The simple string-level `evaluate_expression` of `ReplEngine`
(src/repl.rs, distinct from the syn-based evaluator of src/eval.rs):
integer parse, then float parse, then the two boolean spellings, then a
quoted string literal of byte length at least two, then a whole-line
variable lookup; anything else fails, which is the escalation signal. -/
def repl_evaluate_expression (ctx : ReplContext) (expr : String) :
    Except AnvilErr ShellObject :=
  match parseI64 expr with
  | some n => .ok (.Integer n)
  | none =>
    match parseF64 expr with
    | some f => .ok (.Float f)
    | none =>
      if expr = "true" then .ok (.Boolean true)
      else if expr = "false" then .ok (.Boolean false)
      else if expr.data.head? = some '"' && expr.data.getLast? = some '"'
          && decide (2 ≤ expr.utf8ByteSize) then
        .ok (.String ⟨(expr.data.drop 1).dropLast⟩)
      else
        match assocLookup ctx.variablesMap expr with
        | some v => .ok v
        | none =>
          .error (.evalE "Cannot evaluate expression without compilation")

/-- Word character of the regex class `\w` (ASCII range; the inputs the
settled claims use are ASCII). -/
def isRegexWordChar (c : Char) : Bool := c.isAlphanum || c = '_'

/-- Matcher for the anchored regex `let\s+(\w+)\s*=\s*(.+)$` applied by
`try_simple_evaluation` (with `^let`).  Maximal munch of `\s+`, `\w+` and
`\s*` coincides with the backtracking semantics here because the classes
are disjoint from each other and from `=`; `.` does not match a newline,
so a newline in the remainder defeats the `(.+)$` group. -/
def letRegexMatch (s : String) : Option (String × String) :=
  match s.data with
  | 'l' :: 'e' :: 't' :: rest =>
    let ws1 := rest.takeWhile rustIsWhitespace
    let r1 := rest.dropWhile rustIsWhitespace
    if ws1.isEmpty then none
    else
      let word := r1.takeWhile isRegexWordChar
      let r2 := r1.dropWhile isRegexWordChar
      if word.isEmpty then none
      else
        match r2.dropWhile rustIsWhitespace with
        | '=' :: r4 =>
          let valueExpr := r4.dropWhile rustIsWhitespace
          if valueExpr.isEmpty || valueExpr.any (fun c => c = '\n') then
            none
          else some (⟨word⟩, ⟨valueExpr⟩)
        | _ => none
  | _ => none

/-- `try_simple_evaluation`: on a `let NAME = EXPR` line only the
right-hand side is evaluated and its value returned — the binding is NOT
stored into the context (the source notes: "In a real implementation,
we\x27d store this in context"); otherwise the whole trimmed line is
evaluated as an expression. -/
def try_simple_evaluation (ctx : ReplContext) (code : String) :
    Except AnvilErr ShellObject :=
  let trimmed := rustTrim code
  match letRegexMatch trimmed with
  | some (_varName, valueExpr) => repl_evaluate_expression ctx valueExpr
  | none => repl_evaluate_expression ctx trimmed

/-- Substring test (`str::contains`). -/
def strContainsSub (s sub : String) : Bool :=
  s.data.tails.any (fun t => sub.data.isPrefixOf t)

/-- First-occurrence deduplication (the `HashSet` dedup of
`generate_rust_program`; set iteration order is modelled as insertion
order — no settled claim depends on it). -/
def dedupAux : List String → List String → List String
  | [], _ => []
  | x :: xs, seen =>
    if seen.contains x then dedupAux xs seen
    else x :: dedupAux xs (x :: seen)

def dedupKeepOrder (l : List String) : List String := dedupAux l []

/-- `generate_rust_program`: deduplicated imports, then accumulated
function sources, then an entry point wrapping the snippet — verbatim
when it looks like a statement (trimmed text ending in `;`, or containing
`let ` or `fn `), otherwise bound to `result` and debug-printed. -/
def generate_rust_program (ctx : ReplContext) (code : String) : String :=
  let importsPart :=
    String.join ((dedupKeepOrder ctx.imports).map (fun i => i ++ "\n"))
  let funcsPart :=
    String.join (ctx.functions.map (fun kv => kv.2 ++ "\n"))
  let isStatement :=
    (rustTrim code).data.getLast? = some ';' ||
    strContainsSub code "let " || strContainsSub code "fn "
  importsPart ++ funcsPart ++ "\nfn main() \x7b\n" ++
    (if isStatement then "    " ++ code ++ "\n"
     else
       "    let result = " ++ code ++ ";\n" ++
       "    println!(\"\x7b:?\x7d\", result);\n") ++
  "\x7d\n"

/-- `parse_output`: the heuristic that turns captured stdout back into a
value.  Empty (after trimming) is Unit; a text that starts AND ends with
a double quote is sliced as `[1 .. len-1]` — for the one-byte text `"`
that slice is `1..0`, which panics; otherwise integer parse, float
parse, the boolean spellings, and finally the raw trimmed text as a
String. -/
def parse_output (output : String) : RustResult ShellObject :=
  let trimmed := rustTrim output
  if trimmed.data.isEmpty then .ok .Unit
  else if trimmed.data.head? = some '"' &&
      trimmed.data.getLast? = some '"' then
    if 2 ≤ trimmed.data.length then
      .ok (.String ⟨(trimmed.data.drop 1).dropLast⟩)
    else .panicked
  else
    match parseI64 trimmed with
    | some n => .ok (.Integer n)
    | none =>
      match parseF64 trimmed with
      | some f => .ok (.Float f)
      | none =>
        if trimmed = "true" then .ok (.Boolean true)
        else if trimmed = "false" then .ok (.Boolean false)
        else .ok (.String trimmed)

/-- Configuration slice used by the pipeline (src/config.rs). -/
structure ReplConfig where
  compile_timeout_ms : Nat
  execution_timeout_ms : Nat
deriving DecidableEq, Repr

/-- Default timeouts of `Config::default()` (src/config.rs). -/
def defaultConfig : ReplConfig where
  compile_timeout_ms := 5000
  execution_timeout_ms := 30000

/-- Observable outcome of the rustc invocation. -/
structure CompileOutcome where
  success : Bool
  stderrText : String
deriving DecidableEq, Repr

/-- Observable outcome of running the produced executable. -/
structure ExecOutcome where
  success : Bool
  stdoutText : String
  stderrText : String
deriving DecidableEq, Repr

/-- Oracle for the two external calls of one pipeline invocation.
`none` for a spawn that failed outright; durations are the wall-clock
measurements the source takes around each call. -/
structure PipelineWorld where
  compileSpawn : Option CompileOutcome
  compileDurationMs : Nat
  execSpawn : Option ExecOutcome
  execDurationMs : Nat
deriving DecidableEq, Repr

/-- Result of one `compile_and_execute` invocation: the returned value or
error, whether the derived executable still exists on disk at return,
and the (possibly updated) session context. -/
structure PipelineResult where
  result : RustResult ShellObject
  exeExists : Bool
  ctx : ReplContext

/-- `compile_and_execute`, with the external calls supplied by the
oracle.  Control flow mirrors the source exactly: compile-duration check
FIRST (before the spawn unwrap and status check), then the run phase with
its duration check and spawn unwrap, and only THEN the single
`remove_file(&exe_path)`, followed by the exit-status check, output
parsing and the history append.  The executable exists from the moment a
successful rustc run returns until that single removal point — so the
compile-timeout, run-timeout and run-spawn-failure returns leave it on
disk. -/
def compile_and_execute (cfg : ReplConfig) (w : PipelineWorld)
    (ctx : ReplContext) (code : String) : PipelineResult :=
  let exeProduced :=
    match w.compileSpawn with
    | some o => o.success
    | none => false
  if cfg.compile_timeout_ms < w.compileDurationMs then
    ⟨.err (.compilationE "Compilation timeout"), exeProduced, ctx⟩
  else
    match w.compileSpawn with
    | none => ⟨.err (.compilationE "Failed to run rustc"), false, ctx⟩
    | some o =>
      if !o.success then
        ⟨.err (.compilationE ("Compilation failed:\n" ++ o.stderrText)),
          false, ctx⟩
      else
        if cfg.execution_timeout_ms < w.execDurationMs then
          ⟨.err (.runtimeE "Execution timeout"), true, ctx⟩
        else
          match w.execSpawn with
          | none => ⟨.err (.runtimeE "Failed to execute"), true, ctx⟩
          | some eo =>
            -- `let _ = std::fs::remove_file(&exe_path);`
            if !eo.success then
              ⟨.err (.runtimeE ("Runtime error:\n" ++ eo.stderrText)),
                false, ctx⟩
            else
              match parse_output eo.stdoutText with
              | .ok v =>
                ⟨.ok v, false,
                  { ctx with
                      code_history := ctx.code_history ++ [code] }⟩
              | .err e => ⟨.err e, false, ctx⟩
              | .panicked => ⟨.panicked, false, ctx⟩

/-- Result of `execute_rust_code`: the value or error handed back to the
caller, whether the pipeline was invoked, and the resulting context. -/
structure OrchestratorResult where
  result : RustResult ShellObject
  pipelineInvoked : Bool
  ctx : ReplContext

/-- `execute_rust_code`: try the fast evaluation; on `Ok` return its
value (the pipeline is never invoked and the context is untouched); on
any `Err` the error is discarded and the original full line is handed to
`compile_and_execute`, whose result is returned. -/
def execute_rust_code (cfg : ReplConfig) (w : PipelineWorld)
    (ctx : ReplContext) (code : String) : OrchestratorResult :=
  match try_simple_evaluation ctx code with
  | .ok v => ⟨.ok v, false, ctx⟩
  | .error _ =>
    let p := compile_and_execute cfg w ctx code
    ⟨p.result, true, p.ctx⟩

/-! ### Auxiliary definitions used by the claim statements -/

/-- The variants on which `eq_objects` is reflexive: String, Integer,
non-NaN Float, Boolean and Unit. -/
def isReflexiveScalar : ShellObject → Bool
  | .String _ => true
  | .Integer _ => true
  | .Float f => !f64IsNan f
  | .Boolean _ => true
  | .Unit => true
  | _ => false

/-- Oracle run in which rustc succeeds quickly (producing the
executable) and the executable run exceeds the 30000 ms execution
budget. -/
def execTimeoutWorld : PipelineWorld where
  compileSpawn := some ⟨true, ""⟩
  compileDurationMs := 10
  execSpawn := some ⟨true, "4", ""⟩
  execDurationMs := 31000

/-- Oracle run in which rustc itself fails (as it does when the snippet
references an undefined variable), quickly. -/
def compileFailWorld : PipelineWorld where
  compileSpawn := some ⟨false, "error: cannot find value x in this scope"⟩
  compileDurationMs := 10
  execSpawn := none
  execDurationMs := 0

/-! ### Lemmas: decimal digits round-trip -/

theorem natDigitsRevAux_ne_nil (fuel n : Nat) :
    natDigitsRevAux fuel n ≠ [] := by
  cases fuel with
  | zero => simp [natDigitsRevAux]
  | succ fuel =>
    by_cases h : n < 10 <;> simp [natDigitsRevAux, h]

theorem mem_natDigitsRevAux_lt (fuel : Nat) :
    ∀ n, n ≤ fuel → ∀ d ∈ natDigitsRevAux fuel n, d < 10 := by
  induction fuel with
  | zero =>
    intro n hn d hd
    simp only [natDigitsRevAux, List.mem_singleton] at hd
    omega
  | succ fuel ih =>
    intro n hn d hd
    by_cases h : n < 10
    · simp only [natDigitsRevAux, if_pos h, List.mem_singleton] at hd
      omega
    · simp only [natDigitsRevAux, if_neg h, List.mem_cons] at hd
      rcases hd with h1 | h2
      · omega
      · have hdiv : n / 10 < n := Nat.div_lt_self (by omega) (by omega)
        exact ih (n / 10) (by omega) d h2

theorem foldl_natDigitsRevAux (fuel : Nat) :
    ∀ n acc, n ≤ fuel →
      (natDigitsRevAux fuel n).reverse.foldl (fun a d => a * 10 + d) acc
        = acc * 10 ^ (natDigitsRevAux fuel n).length + n := by
  induction fuel with
  | zero =>
    intro n acc hn
    have : n = 0 := by omega
    subst this
    simp [natDigitsRevAux]
  | succ fuel ih =>
    intro n acc hn
    by_cases h : n < 10
    · simp [natDigitsRevAux, h]
    · have hdiv : n / 10 < n := Nat.div_lt_self (by omega) (by omega)
      have hrec := ih (n / 10) acc (by omega)
      simp only [natDigitsRevAux, if_neg h, List.reverse_cons,
        List.foldl_append, List.foldl_cons, List.foldl_nil,
        List.length_cons, hrec]
      have hmod := Nat.div_add_mod n 10
      ring_nf
      omega

theorem digitVal_digitChar (d : Nat) (h : d < 10) :
    digitVal (digitChar d) = some d := by
  interval_cases d <;> rfl

theorem parseDigitsAux_map (ds : List Nat) :
    ∀ acc, (∀ d ∈ ds, d < 10) →
      parseDigitsAux (ds.map digitChar) acc
        = some (ds.foldl (fun a d => a * 10 + d) acc) := by
  induction ds with
  | nil => intro acc _; rfl
  | cons d ds ih =>
    intro acc hall
    have hd : d < 10 := hall d (List.mem_cons_self d ds)
    simp only [List.map_cons, parseDigitsAux, digitVal_digitChar d hd,
      List.foldl_cons]
    exact ih (acc * 10 + d) (fun x hx => hall x (List.mem_cons_of_mem d hx))

theorem parseDigits_natToDigits (n : Nat) :
    parseDigits (natToDigits n) = some n := by
  have hmap : natToDigits n = (natDigitsRev n).reverse.map digitChar := by
    unfold natToDigits
    exact (List.map_reverse _ _).symm
  have hne : (natDigitsRev n).reverse.map digitChar ≠ [] := by
    simp [natDigitsRev, natDigitsRevAux_ne_nil n n]
  have hall : ∀ d ∈ (natDigitsRev n).reverse, d < 10 := by
    intro d hd
    exact mem_natDigitsRevAux_lt n n le_rfl d (List.mem_reverse.mp hd)
  rw [hmap]
  unfold parseDigits
  rw [if_neg (by simpa [List.isEmpty_iff] using hne)]
  rw [parseDigitsAux_map _ 0 hall]
  have := foldl_natDigitsRevAux n n 0 le_rfl
  unfold natDigitsRev
  rw [this]
  simp

theorem natToDigits_head (n : Nat) :
    ∃ d ds, natToDigits n = digitChar d :: ds ∧ d < 10 ∧
      (∀ c ∈ ds, ∃ e, e < 10 ∧ c = digitChar e) := by
  have hall : ∀ d ∈ (natDigitsRev n).reverse, d < 10 := fun d hd =>
    mem_natDigitsRevAux_lt n n le_rfl d (List.mem_reverse.mp hd)
  have hmap : natToDigits n = (natDigitsRev n).reverse.map digitChar := by
    unfold natToDigits
    exact (List.map_reverse _ _).symm
  cases h : (natDigitsRev n).reverse with
  | nil =>
    exfalso
    exact natDigitsRevAux_ne_nil n n (by
      have := congrArg List.reverse h
      simpa [natDigitsRev] using this)
  | cons d ds =>
    refine ⟨d, ds.map digitChar, ?_, ?_, ?_⟩
    · rw [hmap, h, List.map_cons]
    · exact hall d (h ▸ List.mem_cons_self d ds)
    · intro c hc
      obtain ⟨e, he, rfl⟩ := List.mem_map.mp hc
      exact ⟨e, hall e (h ▸ List.mem_cons_of_mem d he), rfl⟩

theorem digitChar_not_ws (d : Nat) (h : d < 10) :
    rustIsWhitespace (digitChar d) = false := by
  interval_cases d <;> rfl

theorem digitChar_ne_quote (d : Nat) (h : d < 10) : digitChar d ≠ '"' := by
  interval_cases d <;> decide

theorem digitChar_ne_plus (d : Nat) (h : d < 10) : digitChar d ≠ '+' := by
  interval_cases d <;> decide

theorem digitChar_ne_minus (d : Nat) (h : d < 10) : digitChar d ≠ '-' := by
  interval_cases d <;> decide

/-! ### Lemmas: trim and integer parsing -/

theorem dropWhile_of_none {α : Type} (p : α → Bool) :
    ∀ l : List α, (∀ c ∈ l, p c = false) → l.dropWhile p = l := by
  intro l h
  cases l with
  | nil => rfl
  | cons c cs =>
    simp [List.dropWhile, h c (List.mem_cons_self c cs)]

theorem rustTrim_of_none (s : String)
    (h : ∀ c ∈ s.data, rustIsWhitespace c = false) : rustTrim s = s := by
  unfold rustTrim
  rw [dropWhile_of_none _ _ h,
    dropWhile_of_none _ _ (fun c hc => h c (List.mem_reverse.mp hc)),
    List.reverse_reverse]

theorem parseI64_no_sign (l : List Char)
    (h1 : ∀ rest, l ≠ '+' :: rest) (h2 : ∀ rest, l ≠ '-' :: rest) :
    parseI64 ⟨l⟩ =
      (parseDigits l).bind fun n =>
        if (n : Int) ≤ i64MaxInt then some (n : Int) else none := by
  unfold parseI64
  split
  · next rest heq => exact absurd heq (h1 rest)
  · next rest heq => exact absurd heq (h2 rest)
  · rfl

theorem parseI64_minus (l : List Char) :
    parseI64 ⟨'-' :: l⟩ =
      (parseDigits l).bind fun n =>
        if i64MinInt ≤ -(n : Int) then some (-(n : Int)) else none := by
  unfold parseI64
  split
  · next rest heq => exact absurd heq (by simp)
  · next rest heq =>
    obtain rfl : rest = l := by
      injection heq with h1 h2
      exact h2.symm
    rfl
  · next h1 h2 => exact absurd rfl (h2 l)

theorem parseI64_intToDisplay (i : Int)
    (hmin : i64MinInt ≤ i) (hmax : i ≤ i64MaxInt) :
    parseI64 (intToDisplay i) = some i := by
  obtain ⟨d, ds, hcons, hd, _⟩ := natToDigits_head i.natAbs
  by_cases hneg : i < 0
  · have hdata : intToDisplay i = ⟨'-' :: natToDigits i.natAbs⟩ := by
      unfold intToDisplay
      rw [if_pos hneg]
      rfl
    rw [hdata, parseI64_minus, parseDigits_natToDigits]
    have habs : -(i.natAbs : Int) = i := by omega
    rw [Option.some_bind, habs, if_pos hmin]
  · have hdata : intToDisplay i = ⟨natToDigits i.natAbs⟩ := by
      unfold intToDisplay
      rw [if_neg hneg]
      rfl
    have habs : (i.natAbs : Int) = i := Int.natAbs_of_nonneg (by omega)
    rw [hdata,
      parseI64_no_sign (natToDigits i.natAbs)
        (by
          intro rest heq
          rw [hcons] at heq
          exact digitChar_ne_plus d hd (by injection heq))
        (by
          intro rest heq
          rw [hcons] at heq
          exact digitChar_ne_minus d hd (by injection heq)),
      parseDigits_natToDigits, Option.some_bind, habs, if_pos hmax]

theorem mem_natToDigits (n : Nat) :
    ∀ c ∈ natToDigits n, ∃ e, e < 10 ∧ c = digitChar e := by
  intro c hc
  have hmap : natToDigits n = (natDigitsRev n).reverse.map digitChar := by
    unfold natToDigits
    exact (List.map_reverse _ _).symm
  rw [hmap] at hc
  obtain ⟨e, he, rfl⟩ := List.mem_map.mp hc
  exact ⟨e, mem_natDigitsRevAux_lt n n le_rfl e (List.mem_reverse.mp he),
    rfl⟩

theorem intToDisplay_data (i : Int) :
    (intToDisplay i).data =
      (if i < 0 then ['-'] else []) ++ natToDigits i.natAbs := by
  unfold intToDisplay
  by_cases hneg : i < 0
  · rw [if_pos hneg, if_pos hneg]; rfl
  · rw [if_neg hneg, if_neg hneg]; rfl

theorem parse_output_via_parseI64 (s : String) (n : Int)
    (hws : ∀ c ∈ s.data, rustIsWhitespace c = false)
    (hne : s.data ≠ [])
    (hq : s.data.head? ≠ some '"')
    (hp : parseI64 s = some n) :
    parse_output s = .ok (.Integer n) := by
  unfold parse_output
  rw [rustTrim_of_none s hws]
  rw [if_neg (by simpa [List.isEmpty_iff] using hne)]
  rw [if_neg (by simp [hq])]
  rw [hp]

theorem natToDigits_ne_nil (n : Nat) : natToDigits n ≠ [] := by
  unfold natToDigits
  simp only [ne_eq, List.reverse_eq_nil_iff, List.map_eq_nil_iff]
  exact natDigitsRevAux_ne_nil n n

/-! ### The claims -/

/-- C1 (code bug evidence): in one session the line `let x = 10` is
recognized by the fast path and yields `Integer 10`, but the binding is
never committed into the session context (`variablesMap` stays empty, as
the source itself comments); consequently the later line `x + 5` fails
the fast path and escalates to the pipeline, where rustc rejects the
undefined `x`, producing a CompilationError instead of the
`Integer 15` the claim requires. -/
theorem c1_let_binding_never_committed :
    try_simple_evaluation ReplContext.empty "let x = 10"
        = .ok (.Integer 10)
    ∧ (execute_rust_code defaultConfig compileFailWorld ReplContext.empty
        "let x = 10").result = .ok (.Integer 10)
    ∧ (execute_rust_code defaultConfig compileFailWorld ReplContext.empty
        "let x = 10").ctx.variablesMap = []
    ∧ try_simple_evaluation ReplContext.empty "x + 5"
        = .error (.evalE "Cannot evaluate expression without compilation")
    ∧ (execute_rust_code defaultConfig compileFailWorld ReplContext.empty
        "x + 5").pipelineInvoked = true
    ∧ (execute_rust_code defaultConfig compileFailWorld ReplContext.empty
        "x + 5").result
        = .err (.compilationE
            "Compilation failed:\nerror: cannot find value x in this scope") :=
  ⟨rfl, rfl, rfl, rfl, rfl, rfl⟩

/-- C2 (code bug evidence): when compilation succeeds (producing the
executable) and the run phase exceeds the execution budget,
`compile_and_execute` returns the `Execution timeout` error BEFORE the
single `remove_file(&exe_path)` call, so the derived executable still
exists on disk when the call returns — contradicting cleanup on every
exit path. -/
theorem c2_executable_survives_execution_timeout :
    (compile_and_execute defaultConfig execTimeoutWorld ReplContext.empty
      "2 + 2").result = .err (.runtimeE "Execution timeout")
    ∧ (compile_and_execute defaultConfig execTimeoutWorld ReplContext.empty
      "2 + 2").exeExists = true :=
  ⟨rfl, rfl⟩

/-- C3 (code bug evidence): indexing the one-scalar-value string
`"é"` (two UTF-8 bytes) at position 1 passes the byte-length bound
check but panics indexing the char vector, instead of failing with a
RuntimeError; position 0 returns the one-character string and position 2
(beyond the byte length) is the clean RuntimeError. -/
theorem c3_string_index_panics_inside_byte_range :
    evaluate_expr [] (.indexE (.lit (.str ⟨[Char.ofNat 0xE9]⟩))
      (.lit (.int 1))) = .panicked
    ∧ evaluate_expr [] (.indexE (.lit (.str ⟨[Char.ofNat 0xE9]⟩))
      (.lit (.int 0))) = .ok (.String ⟨[Char.ofNat 0xE9]⟩)
    ∧ evaluate_expr [] (.indexE (.lit (.str ⟨[Char.ofNat 0xE9]⟩))
      (.lit (.int 2)))
      = .err (.runtimeE "Index 2 out of bounds for string of length 2") :=
  ⟨rfl, rfl, rfl⟩

/-- C4 (counterexample): the display string of `String "1"` is `"1"`,
which the output parser reconstructs as `Integer 1`, not as a value
equivalent to the original String — the scalar round trip fails for
String (and similarly for Float, whose integral values display without a
fractional part). -/
theorem c4_string_reparses_as_integer :
    parse_output (to_display_string (.String "1")) = .ok (.Integer 1)
    ∧ parse_output (to_display_string (.String "1")) ≠ .ok (.String "1") := by
  refine ⟨rfl, ?_⟩
  intro h
  rw [show parse_output (to_display_string (.String "1"))
      = .ok (.Integer 1) from rfl] at h
  simp at h

/-- C4 (amended): the scalar round trip holds for every Integer in the
`i64` range and for both Booleans: parsing the display string through the
output parser reconstructs the value exactly. -/
theorem c4_integer_boolean_round_trip (i : Int) (b : Bool)
    (hmin : i64MinInt ≤ i) (hmax : i ≤ i64MaxInt) :
    parse_output (to_display_string (.Integer i)) = .ok (.Integer i)
    ∧ parse_output (to_display_string (.Boolean b)) = .ok (.Boolean b) := by
  constructor
  · have hdisp : to_display_string (.Integer i) = intToDisplay i := rfl
    rw [hdisp]
    refine parse_output_via_parseI64 _ i ?_ ?_ ?_
      (parseI64_intToDisplay i hmin hmax)
    · intro c hc
      rw [intToDisplay_data] at hc
      rcases List.mem_append.mp hc with h1 | h2
      · by_cases hneg : i < 0
        · rw [if_pos hneg] at h1
          simp only [List.mem_singleton] at h1
          subst h1
          rfl
        · rw [if_neg hneg] at h1
          simp at h1
      · obtain ⟨e, he, rfl⟩ := mem_natToDigits _ c h2
        exact digitChar_not_ws e he
    · rw [intToDisplay_data]
      intro hcontra
      rcases List.append_eq_nil.mp hcontra with ⟨_, h2⟩
      exact natToDigits_ne_nil _ h2
    · rw [intToDisplay_data]
      by_cases hneg : i < 0
      · rw [if_pos hneg]
        simp
      · rw [if_neg hneg]
        obtain ⟨d, ds, hcons, hd, _⟩ := natToDigits_head i.natAbs
        rw [hcons]
        simp only [List.nil_append, List.head?_cons, ne_eq,
          Option.some.injEq]
        exact digitChar_ne_quote d hd
  · cases b <;> rfl

/-- C5: `/` on any pair of numeric operands yields a Float on success —
even for two Integers (true division) — and a zero divisor (integer zero
or float `0.0`) is a `Division by zero` RuntimeError checked before any
division is performed, so no value at all (in particular no infinity and
no NaN) is produced from a zero divisor; `div_objects` has no panic
outcome. -/
theorem c5_division_always_float_zero_divisor_errors
    (a b : Int) (x y : F64) :
    div_objects (.Integer a) (.Integer b)
      = (if b = 0 then .error (.runtimeE "Division by zero")
         else .ok (.Float (fdiv (intToF64 a) (intToF64 b))))
    ∧ div_objects (.Float x) (.Float y)
      = (if f64IsZero y then .error (.runtimeE "Division by zero")
         else .ok (.Float (fdiv x y)))
    ∧ div_objects (.Integer a) (.Float y)
      = (if f64IsZero y then .error (.runtimeE "Division by zero")
         else .ok (.Float (fdiv (intToF64 a) y)))
    ∧ div_objects (.Float x) (.Integer b)
      = (if b = 0 then .error (.runtimeE "Division by zero")
         else .ok (.Float (fdiv x (intToF64 b)))) :=
  ⟨rfl, rfl, rfl, rfl⟩

/-- C6: for every input line, a successful fast evaluation is returned
as-is and the pipeline is never invoked (the context is untouched); any
fast-evaluation failure is discarded — the orchestrator result is
exactly the pipeline result, whatever the error was — and the pipeline
is invoked exactly then. -/
theorem c6_fast_failure_only_escalates (cfg : ReplConfig)
    (w : PipelineWorld) (ctx : ReplContext) (code : String) :
    match try_simple_evaluation ctx code with
    | .ok v => execute_rust_code cfg w ctx code = ⟨.ok v, false, ctx⟩
    | .error _ =>
      execute_rust_code cfg w ctx code =
        ⟨(compile_and_execute cfg w ctx code).result, true,
          (compile_and_execute cfg w ctx code).ctx⟩ := by
  cases h : try_simple_evaluation ctx code with
  | ok v => simp [execute_rust_code, h]
  | error e => simp [execute_rust_code, h]

/-- C7: block expressions, if expressions and match expressions each
fail with an EvalError naming the unsupported category, and any
expression form outside the grammar fails with the
`Unsupported expression type` EvalError carrying its tokens; none of
them is evaluated. -/
theorem c7_unsupported_forms_fail_with_eval_error (env : Env)
    (toks : String) :
    evaluate_expr env .blockE
      = .err (.evalE "Block expressions not supported in simple evaluation")
    ∧ evaluate_expr env .ifE
      = .err (.evalE "If expressions not supported in simple evaluation")
    ∧ evaluate_expr env .matchE
      = .err (.evalE "Match expressions not supported in simple evaluation")
    ∧ evaluate_expr env (.otherE toks)
      = .err (.evalE ("Unsupported expression type: " ++ toks)) :=
  ⟨rfl, rfl, rfl, rfl⟩

/-- C8 (counterexample): the literal text `-9223372036854775808`
(`i64::MIN`) parses as unary negation applied to the unsigned literal
`2^63`; `base10_parse::<i64>` overflows on `2^63` BEFORE the negation is
applied, so evaluation fails with an `Invalid integer` EvalError rather
than yielding `Integer (i64::MIN)`. -/
theorem c8_i64_min_literal_fails :
    evaluate_expr [] (.unary .Neg (.lit (.int 9223372036854775808)))
      = .err (.evalE litIntOverflowMessage)
    ∧ evaluate_expr [] (.unary .Neg (.lit (.int 9223372036854775808)))
      ≠ .ok (.Integer (-9223372036854775808)) := by
  refine ⟨rfl, ?_⟩
  intro h
  rw [show evaluate_expr [] (.unary .Neg (.lit (.int 9223372036854775808)))
      = .err (.evalE litIntOverflowMessage) from rfl] at h
  simp at h

/-- C8 (amended): every integer literal whose digit value fits in
`i64` — that is, every value up to `i64::MAX = 2^63 - 1` — evaluates to
`Integer` of that value, and its unary negation evaluates to the negated
Integer; this covers every valid `i64` literal text except the minimum
`-2^63`, whose magnitude overflows the literal parse before negation. -/
theorem c8_integer_literals_in_range (env : Env) (n : Nat)
    (h : (n : Int) ≤ i64MaxInt) :
    evaluate_expr env (.lit (.int n)) = .ok (.Integer n)
    ∧ evaluate_expr env (.unary .Neg (.lit (.int n)))
      = .ok (.Integer (-(n : Int))) := by
  have hlit : evaluate_literal (.int n) = .ok (.Integer n) := by
    simp only [evaluate_literal, if_pos h]
  have hwrap : wrapI64 (-(n : Int)) = -(n : Int) := by
    unfold wrapI64
    unfold i64MaxInt at h
    rw [Int.emod_eq_of_lt (by omega) (by omega)]
    omega
  have hlitExpr : evaluate_expr env (.lit (.int n))
      = RustResult.ok (.Integer n) := by
    rw [show evaluate_expr env (.lit (.int n))
        = exceptToRust (evaluate_literal (.int n)) from rfl, hlit]
    rfl
  constructor
  · exact hlitExpr
  · rw [show evaluate_expr env (.unary .Neg (.lit (.int n)))
        = (match evaluate_expr env (.lit (.int n)) with
           | RustResult.ok v => exceptToRust (evaluate_unary_op .Neg v)
           | RustResult.err e => RustResult.err e
           | RustResult.panicked => RustResult.panicked) from rfl,
      hlitExpr]
    show RustResult.ok (ShellObject.Integer (wrapI64 (-(n : Int))))
      = RustResult.ok (ShellObject.Integer (-(n : Int)))
    rw [hwrap]

/-- C9: equality on collections is constantly false — two Arrays or two
Maps, even structurally identical ones, compare `==` false and `!=`
true — and `eq_objects v v` is true exactly for the reflexive scalars:
String, Integer, non-NaN Float, Boolean and Unit. -/
theorem c9_collection_equality_constantly_false
    (xs ys : List ShellObject)
    (m1 m2 : List (String × ShellObject)) (v : ShellObject) :
    eq_objects (.Array xs) (.Array ys) = false
    ∧ eq_objects (.Map m1) (.Map m2) = false
    ∧ evaluate_binary_op .Eq (.Array xs) (.Array ys)
      = .ok (.Boolean false)
    ∧ evaluate_binary_op .Ne (.Array xs) (.Array ys)
      = .ok (.Boolean true)
    ∧ evaluate_binary_op .Eq (.Map m1) (.Map m2) = .ok (.Boolean false)
    ∧ evaluate_binary_op .Ne (.Map m1) (.Map m2) = .ok (.Boolean true)
    ∧ eq_objects v v = isReflexiveScalar v := by
  refine ⟨rfl, rfl, rfl, rfl, rfl, rfl, ?_⟩
  cases v with
  | String s => simp [eq_objects, isReflexiveScalar]
  | Integer i => simp [eq_objects, isReflexiveScalar]
  | Float f =>
    cases f <;> simp [eq_objects, isReflexiveScalar, f64Eq, f64IsNan]
  | Boolean b => simp [eq_objects, isReflexiveScalar]
  | Unit => rfl
  | Array elems => rfl
  | Map entries => rfl
  | File f => rfl
  | Directory d => rfl
  | Path p => rfl
  | Process p => rfl
  | Command c => rfl
  | Environment e => rfl
  | Function f => rfl
  | Error m => rfl

/-- C10 (code bug evidence): on a captured output whose trimmed form is
the single double-quote character, the parser enters the quoted-string
branch (the text both starts and ends with `"`), and the slice
`[1 .. len-1]` is the invalid range `1..0`, which panics — the parser is
not total. -/
theorem c10_parse_output_panics_on_single_quote :
    parse_output "\"" = .panicked
    ∧ parse_output "  \"  " = .panicked :=
  ⟨rfl, rfl⟩

/-! ### Witnesses for the hypothesis-bearing claim theorems -/

/-- Witness for C4 (amended) at `i = -42`, `b = true`. -/
theorem c4_integer_boolean_round_trip_witness :
    parse_output (to_display_string (.Integer (-42)))
      = .ok (.Integer (-42))
    ∧ parse_output (to_display_string (.Boolean true))
      = .ok (.Boolean true) :=
  c4_integer_boolean_round_trip (-42) true (by decide) (by decide)

/-- Witness for C8 (amended) at `n = 42`. -/
theorem c8_integer_literals_in_range_witness :
    evaluate_expr [] (.lit (.int 42)) = .ok (.Integer 42)
    ∧ evaluate_expr [] (.unary .Neg (.lit (.int 42)))
      = .ok (.Integer (-42)) :=
  c8_integer_literals_in_range [] 42 (by decide)

end Anvil
